import Mathlib

/-!
Verification development for `painter.py` of the `ipv6_canvas_painter`
repository.  Python integers are modelled as `Int`/`Nat`; Python float
values that the program ever rounds are modelled as exact rationals;
`sys.exit(1)` paths are modelled as `none` of an `Option` result.
-/

/-! ### Constants (painter.py lines 56-76) -/

def DELAY : ℚ := 1/5

def MAX_WORKERS : Nat := 3

def MAGIC_NUMBER : Int := 8

def UNDEFINED : Int := -1

def ORIGIN : Int := 0

def MAX : Int := 0x10000

def MIN_SIZE : Int := 1

def MAX_COLOR : Nat := 0xFF

/-- Python's built-in `round` on an exact value: round half to even. -/
def pyRound (q : ℚ) : Int :=
  let f : Int := ⌊q⌋
  let r : ℚ := q - (f : ℚ)
  if r < 1/2 then f
  else if 1/2 < r then f + 1
  else if f % 2 = 0 then f else f + 1

/-- `MAX_SIZE = round(MAX / MAGIC_NUMBER)` (painter.py line 65). -/
def MAX_SIZE : Int := pyRound ((MAX : ℚ) / (MAGIC_NUMBER : ℚ))

/-! ### Hexadecimal formatting, as in Python `f-string` format specifiers -/

/-- Digits of `n` in base 16, most significant first, lowercase, no leading
zeros (`"0"` for 0): Python's `{n:x}`. -/
def hexDigits (n : Nat) : List Char :=
  if _h : n < 16 then [Nat.digitChar n]
  else hexDigits (n / 16) ++ [Nat.digitChar (n % 16)]
termination_by n
decreasing_by exact Nat.div_lt_self (by omega) (by omega)

/-- Left-pad a digit list with `'0'` up to width `w`. -/
def padZeros (w : Nat) (l : List Char) : List Char :=
  List.replicate (w - l.length) '0' ++ l

/-- Python's `{n:0wx}` format: lowercase hex, zero-padded to width `w`. -/
def pyHexFmt (w : Nat) (n : Nat) : String :=
  ⟨padZeros w (hexDigits n)⟩

/-- The address built by `Canvas.paint_pixel` (painter.py lines 103-104):
`f'{base_addr}{x:04x}:{y:04x}:{r:02x}{g:02x}:{b:02x}{a:02x}'`. -/
def paint_pixel_address (base_addr : String) (x y r g b a : Nat) : String :=
  base_addr ++ pyHexFmt 4 x ++ ":" ++ pyHexFmt 4 y ++ ":"
    ++ pyHexFmt 2 r ++ pyHexFmt 2 g ++ ":" ++ pyHexFmt 2 b ++ pyHexFmt 2 a

/-- Value of one lowercase hex digit character. -/
def hexCharVal (c : Char) : Nat :=
  if '0' ≤ c ∧ c ≤ '9' then c.toNat - '0'.toNat
  else if 'a' ≤ c ∧ c ≤ 'f' then c.toNat - 'a'.toNat + 10
  else 0

/-- Decode a big-endian list of hex digit characters. -/
def decodeHexChars (l : List Char) : Nat :=
  l.foldl (fun acc c => 16 * acc + hexCharVal c) 0

/-- Decode a hex string back to the integer it encodes. -/
def decodeHexStr (s : String) : Nat :=
  decodeHexChars s.data

/-- A character is a lowercase hexadecimal digit. -/
def isLowerHexChar (c : Char) : Bool :=
  ('0' ≤ c && c ≤ '9') || ('a' ≤ c && c ≤ 'f')

/-! ### Element (painter.py lines 113-179): a Source's dimensions -/

structure Element where
  width : Int
  height : Int
deriving DecidableEq, Repr

/-- `Element.set_size` (painter.py lines 132-169).  `none` models the
`sys.exit(1)` validation paths; the aspect computation uses exact rational
arithmetic in place of Python floats. -/
def set_size (e : Element) (width height : Int) : Option Element :=
  let has_zeros := e.width = 0 ∨ e.height = 0
  if width ≠ UNDEFINED ∧ width < MIN_SIZE then none
  else if width ≠ UNDEFINED ∧ width > MAX_SIZE then none
  else if height ≠ UNDEFINED ∧ height < MIN_SIZE then none
  else if height ≠ UNDEFINED ∧ height > MAX_SIZE then none
  else if width ≠ UNDEFINED ∧ height ≠ UNDEFINED then some ⟨width, height⟩
  else if width ≠ UNDEFINED ∧ e.width ≠ width ∧ ¬has_zeros then
    some ⟨width, pyRound ((width : ℚ) / ((e.width : ℚ) / (e.height : ℚ)))⟩
  else if height ≠ UNDEFINED ∧ e.height ≠ height ∧ ¬has_zeros then
    some ⟨pyRound ((height : ℚ) / ((e.height : ℚ) / (e.width : ℚ))), height⟩
  else some e

/-- `Bitmap.assert_size` (painter.py lines 211-223): `none` models
`sys.exit(1)`. -/
def assert_size (e : Element) : Option Element :=
  if e.width < MIN_SIZE ∨ e.height < MIN_SIZE then none
  else if e.width > MAX_SIZE ∨ e.height > MAX_SIZE then none
  else some e

/-- Dimension logic of `Bitmap.__init__` (painter.py lines 183-196): take the
decoded image's size, then `assert_size`. -/
def bitmap_init (w h : Int) : Option Element :=
  assert_size ⟨w, h⟩

/-- `Bitmap.set_size` (painter.py lines 205-208): the parent `set_size`, then
`assert_size` (the image resample itself is the external decoder's job). -/
def bitmap_set_size (e : Element) (width height : Int) : Option Element :=
  (set_size e width height).bind assert_size

/-- Dimension logic of `Filling.__init__` (painter.py lines 234-238):
dimensions start at `(0, 0)` and are set through the shared `set_size`. -/
def filling_init (width height : Int) : Option Element :=
  set_size ⟨0, 0⟩ width height

/-- The wire contract of one paint operation's address: the emitted string is
exactly the base address followed by the colon-separated zero-padded lowercase
hex fields, and each field decodes back to the integer it encodes. -/
def addr_spec (base_addr : String) (x y r g b a : Nat) : Prop :=
  paint_pixel_address base_addr x y r g b a =
      base_addr ++ pyHexFmt 4 x ++ ":" ++ pyHexFmt 4 y ++ ":"
        ++ pyHexFmt 2 r ++ pyHexFmt 2 g ++ ":" ++ pyHexFmt 2 b ++ pyHexFmt 2 a
    ∧ (pyHexFmt 4 x).length = 4 ∧ (pyHexFmt 4 y).length = 4
    ∧ (pyHexFmt 2 r).length = 2 ∧ (pyHexFmt 2 g).length = 2
    ∧ (pyHexFmt 2 b).length = 2 ∧ (pyHexFmt 2 a).length = 2
    ∧ (∀ c ∈ (pyHexFmt 4 x).data, isLowerHexChar c = true)
    ∧ (∀ c ∈ (pyHexFmt 4 y).data, isLowerHexChar c = true)
    ∧ (∀ c ∈ (pyHexFmt 2 r).data, isLowerHexChar c = true)
    ∧ (∀ c ∈ (pyHexFmt 2 g).data, isLowerHexChar c = true)
    ∧ (∀ c ∈ (pyHexFmt 2 b).data, isLowerHexChar c = true)
    ∧ (∀ c ∈ (pyHexFmt 2 a).data, isLowerHexChar c = true)
    ∧ decodeHexStr (pyHexFmt 4 x) = x ∧ decodeHexStr (pyHexFmt 4 y) = y
    ∧ decodeHexStr (pyHexFmt 2 r) = r ∧ decodeHexStr (pyHexFmt 2 g) = g
    ∧ decodeHexStr (pyHexFmt 2 b) = b ∧ decodeHexStr (pyHexFmt 2 a) = a

/-! ### Canvas boundary checks (painter.py lines 258-264 and 545-579) -/

/-- `exceeds_values(x, y, width, height)` (painter.py lines 258-259). -/
def exceeds_values (x y width height : Int) : Bool × Bool × Bool × Bool :=
  (decide (x < ORIGIN), decide (y < ORIGIN),
    decide (x + width > MAX), decide (y + height > MAX))

/-- `exceeds(x, y, width, height)` (painter.py lines 262-264). -/
def exceeds (x y width height : Int) : Bool :=
  let v := exceeds_values x y width height
  v.1 || v.2.1 || v.2.2.1 || v.2.2.2

/-- The paint state after the boundary section: the (possibly shifted) origin
`(x, y)` and the iteration window `[start_x, stop_width) × [start_y,
stop_height)` (painter.py lines 548-579). -/
structure ResolvedArea where
  x : Int
  y : Int
  start_x : Int
  start_y : Int
  stop_width : Int
  stop_height : Int
deriving DecidableEq, Repr

/-- Boundary resolution (painter.py lines 497-500 and 545-579): the
mutual-exclusion check on `--overflow`/`--push`, the `exceeds` test, the
overflow window narrowing, and the push origin shift with its re-check.
`none` models the `sys.exit(1)` paths. -/
def resolve_boundary (x y width height : Int) (overflow push : Bool) :
    Option ResolvedArea :=
  if overflow ∧ push then none
  else if exceeds x y width height then
    if ¬overflow ∧ ¬push then none
    else if overflow then
      some ⟨x, y,
        if x < ORIGIN then ORIGIN - x else ORIGIN,
        if y < ORIGIN then ORIGIN - y else ORIGIN,
        if x + width > MAX then MAX - x else width,
        if y + height > MAX then MAX - y else height⟩
    else
      let nx := if x + width > MAX then MAX - width else if x < ORIGIN then ORIGIN else x
      let ny := if y + height > MAX then MAX - height else if y < ORIGIN then ORIGIN else y
      if exceeds nx ny width height then none
      else some ⟨nx, ny, ORIGIN, ORIGIN, width, height⟩
  else some ⟨x, y, ORIGIN, ORIGIN, width, height⟩

/-- `pixels = (stop_width - start_x) * (stop_height - start_y)` (painter.py
lines 582-586): the progress denominator. -/
def area_pixels (ra : ResolvedArea) : Int :=
  (ra.stop_width - ra.start_x) * (ra.stop_height - ra.start_y)

/-- Number of coordinate pairs the dispatch loop actually visits (a Python
`range` is empty when `stop ≤ start`). -/
def iter_count (ra : ResolvedArea) : Int :=
  max 0 (ra.stop_width - ra.start_x) * max 0 (ra.stop_height - ra.start_y)

/-- What claim C2 asserts of an overflow resolution: origin unchanged,
per-edge window narrowing, painted columns/rows are exactly the in-bounds
portion of the request, window inside the source, count bounded. -/
def overflow_spec (x y width height : Int) (ra : ResolvedArea) : Prop :=
  ra.x = x ∧ ra.y = y ∧
  (x < 0 → ra.start_x = -x) ∧ (y < 0 → ra.start_y = -y) ∧
  (x + width > MAX → ra.stop_width = MAX - x) ∧
  (y + height > MAX → ra.stop_height = MAX - y) ∧
  (∀ t : Int, (ra.x + ra.start_x ≤ t ∧ t < ra.x + ra.stop_width) ↔
    (x ≤ t ∧ t < x + width ∧ 0 ≤ t ∧ t < MAX)) ∧
  (∀ t : Int, (ra.y + ra.start_y ≤ t ∧ t < ra.y + ra.stop_height) ↔
    (y ≤ t ∧ t < y + height ∧ 0 ≤ t ∧ t < MAX)) ∧
  0 ≤ ra.start_x ∧ ra.stop_width ≤ width ∧
  0 ≤ ra.start_y ∧ ra.stop_height ≤ height ∧
  iter_count ra ≤ width * height

/-- What claim C3 asserts of a push resolution: full window kept, origin
shifted per edge, painted pixel count equal to the request, in-bounds after
the shift. -/
def push_spec (x y width height : Int) (ra : ResolvedArea) : Prop :=
  ra.start_x = 0 ∧ ra.start_y = 0 ∧
  ra.stop_width = width ∧ ra.stop_height = height ∧
  (x < 0 → ra.x = 0) ∧ (x + width > MAX → ra.x = MAX - width) ∧
  (0 ≤ x ∧ x + width ≤ MAX → ra.x = x) ∧
  (y < 0 → ra.y = 0) ∧ (y + height > MAX → ra.y = MAX - height) ∧
  (0 ≤ y ∧ y + height ≤ MAX → ra.y = y) ∧
  (0 ≤ width → 0 ≤ height → iter_count ra = width * height) ∧
  exceeds ra.x ra.y width height = false

/-! ### Pixel sources and the dispatch loop (painter.py lines 171-175,
198-201, 240-243, 599-638) -/

/-- One RGBA pixel value; each component is a byte. -/
structure Rgba where
  r : Nat
  g : Nat
  b : Nat
  a : Nat
deriving DecidableEq, Repr

/-- `Element.valid_pixel` (painter.py lines 174-175). -/
def valid_pixel (width height x y : Int) : Bool :=
  decide (x ≥ 0) && decide (x < width) && decide (y ≥ 0) && decide (y < height)

/-- `Bitmap.get_pixel` / `Filling.get_pixel` (painter.py lines 198-201 and
240-243): `none` models the `raise ValueError` branch; `pix` is the
underlying lookup (decoded image data or the constant fill color). -/
def get_pixel (width height : Int) (pix : Int → Int → Rgba) (x y : Int) :
    Option Rgba :=
  if valid_pixel width height x y then some (pix x y) else none

/-- One emitted paint operation: absolute canvas coordinates and color. -/
structure PaintOp where
  x : Int
  y : Int
  r : Nat
  g : Nat
  b : Nat
  a : Nat
deriving DecidableEq, Repr

/-- Python `range(start, stop)` as a list. -/
def range_list (start stop : Int) : List Int :=
  (List.range (stop - start).toNat).map (fun i : Nat => start + (i : Int))

/-- `reversed(range(start, stop))` when reverse mode is on, otherwise
`iter(range(start, stop))` (painter.py lines 610-613 and 619-622). -/
def axis_iter (reverse : Bool) (start stop : Int) : List Int :=
  if reverse then (range_list start stop).reverse else range_list start stop

/-- The source-local coordinate pairs visited by the nested dispatch loop
(outer `y`, inner `x`; painter.py lines 614-623). -/
def iter_coords (reverse : Bool) (ra : ResolvedArea) : List (Int × Int) :=
  (axis_iter reverse ra.start_y ra.stop_height).flatMap
    (fun y => (axis_iter reverse ra.start_x ra.stop_width).map (fun x => (x, y)))

/-- Whether the loop body emits for coordinate `c` (painter.py lines
626-627): it skips only when skip-transparent is on and alpha is exactly 0. -/
def keep_pixel (src : Int → Int → Rgba) (skip : Bool) (c : Int × Int) : Bool :=
  !(skip && ((src c.1 c.2).a == 0))

/-- The paint operation emitted for source-local coordinate `c` (painter.py
lines 618, 624-625, 628-635): absolute coordinates are `origin + offset`. -/
def op_of (src : Int → Int → Rgba) (ox oy : Int) (c : Int × Int) : PaintOp :=
  ⟨ox + c.1, oy + c.2, (src c.1 c.2).r, (src c.1 c.2).g, (src c.1 c.2).b,
    (src c.1 c.2).a⟩

/-- One iteration of the paint loop body (painter.py lines 623-638): skip a
fully transparent pixel when requested, otherwise emit the paint operation,
bump the `painted` counter and append a `painted/pixels` progress report. -/
def paint_step (src : Int → Int → Rgba) (ox oy : Int) (skip : Bool)
    (pixels : Int) (st : Nat × List PaintOp × List (Nat × Int))
    (c : Int × Int) : Nat × List PaintOp × List (Nat × Int) :=
  let px := src c.1 c.2
  if skip && (px.a == 0) then st
  else
    (st.1 + 1,
      st.2.1 ++ [op_of src ox oy c],
      st.2.2 ++ [(st.1 + 1, pixels)])

/-- The dispatch loop (painter.py lines 609-638): fold the body over the
iterated coordinates starting from `painted = 0`, no emitted operations and
no progress reports. -/
def paint_loop (src : Int → Int → Rgba) (ox oy : Int) (reverse skip : Bool)
    (ra : ResolvedArea) (pixels : Int) :
    Nat × List PaintOp × List (Nat × Int) :=
  (iter_coords reverse ra).foldl (paint_step src ox oy skip pixels) (0, [], [])

/-- What claim C5 asserts of a dispatch with skip-transparent enabled: the
counter counts exactly the pixels with non-zero alpha, the emitted
operations are exactly those pixels' operations in iteration order, and one
progress report follows each emitted pixel with the full resolved pixel
count as denominator. -/
def skip_spec (src : Int → Int → Rgba) (ox oy : Int) (reverse : Bool)
    (ra : ResolvedArea) : Prop :=
  (paint_loop src ox oy reverse true ra (area_pixels ra)).1 =
      ((iter_coords reverse ra).filter
        (fun c => !((src c.1 c.2).a == 0))).length ∧
  (paint_loop src ox oy reverse true ra (area_pixels ra)).2.1 =
      ((iter_coords reverse ra).filter
        (fun c => !((src c.1 c.2).a == 0))).map (op_of src ox oy) ∧
  (paint_loop src ox oy reverse true ra (area_pixels ra)).2.2 =
      (List.range
        (paint_loop src ox oy reverse true ra (area_pixels ra)).1).map
        (fun i => (i + 1, area_pixels ra)) ∧
  (∀ p ∈ (paint_loop src ox oy reverse true ra (area_pixels ra)).2.2,
      p.2 = area_pixels ra)

/-- The dispatch-loop safety contract of claim C6: every iterated coordinate
is a valid source-local pixel (so `get_pixel` never takes its `ValueError`
branch), and every emitted operation's absolute coordinate is
`origin + local offset` and lies inside the canvas on both axes. -/
def dispatch_safe (width height : Int) (reverse : Bool) (ra : ResolvedArea) : Prop :=
  (∀ c ∈ iter_coords reverse ra,
    valid_pixel width height c.1 c.2 = true ∧
    (∀ pix : Int → Int → Rgba,
      get_pixel width height pix c.1 c.2 = some (pix c.1 c.2)) ∧
    0 ≤ ra.x + c.1 ∧ ra.x + c.1 < MAX ∧ 0 ≤ ra.y + c.2 ∧ ra.y + c.2 < MAX) ∧
  (∀ (src : Int → Int → Rgba) (skip : Bool) (pixels : Int),
    ∀ op ∈ (paint_loop src ra.x ra.y reverse skip ra pixels).2.1,
      ∃ c ∈ iter_coords reverse ra,
        op = op_of src ra.x ra.y c ∧ op.x = ra.x + c.1 ∧ op.y = ra.y + c.2 ∧
        0 ≤ op.x ∧ op.x < MAX ∧ 0 ≤ op.y ∧ op.y < MAX)

/-! ### Concurrent dispatch batching (painter.py lines 502-504, 604-606,
628-642) -/

/-- Delay override (painter.py lines 502-504): multithreading forces the
per-pixel delay to zero. -/
def effective_delay (multithreading : Bool) (delay : ℚ) : ℚ :=
  if multithreading then 0 else delay

/-- One submission to the pool (painter.py lines 628-633): append the new
future to `canvas_futures`; when the pending count hits a multiple of
`MAX_WORKERS`, wait on the whole batch and clear the list.  The first
component records the batches that have been waited on, in order. -/
def mt_submit (st : List (List PaintOp) × List PaintOp) (op : PaintOp) :
    List (List PaintOp) × List PaintOp :=
  let pending := st.2 ++ [op]
  if pending.length % MAX_WORKERS = 0 then (st.1 ++ [pending], [])
  else (st.1, pending)

/-- Submitting all emitted operations in iteration order (painter.py lines
604-606 and 628-633), starting with no completed batches and nothing
pending. -/
def mt_dispatch (ops : List PaintOp) : List (List PaintOp) × List PaintOp :=
  ops.foldl mt_submit ([], [])

/-- `executor.shutdown(wait=True)` (painter.py lines 641-642): wait on the
final, possibly partial, batch before the done message. -/
def mt_shutdown (st : List (List PaintOp) × List PaintOp) :
    List (List PaintOp) :=
  if st.2.isEmpty then st.1 else st.1 ++ [st.2]

/-- Number of blocking join-waits of a run: one per full in-loop batch plus
the shutdown wait when operations are still outstanding at loop end. -/
def mt_joins (ops : List PaintOp) : Nat :=
  (mt_dispatch ops).1.length +
    (if (mt_dispatch ops).2.isEmpty then 0 else 1)

/-- What claim C10 asserts of a run: pool size 3, forced zero delay,
batches of sizes 3, 3, 1 for 7 submissions with exactly 3 join-waits, all
submitted operations completed in submission order before the done message,
and never more than `MAX_WORKERS` operations in flight. -/
def mt_spec (ops : List PaintOp) : Prop :=
  MAX_WORKERS = 3 ∧
  (∀ d : ℚ, effective_delay true d = 0) ∧
  (mt_shutdown (mt_dispatch ops)).map List.length = [3, 3, 1] ∧
  mt_joins ops = 3 ∧
  (mt_shutdown (mt_dispatch ops)).flatten = ops ∧
  (∀ p : List PaintOp, p <+: ops →
    ((mt_dispatch p).2).length < MAX_WORKERS)

/-! ### Lemmas and claim theorems -/

/-! ### Lemmas about hex encoding -/

lemma hexCharVal_digitChar (m : Nat) (hm : m < 16) :
    hexCharVal (Nat.digitChar m) = m := by
  interval_cases m <;> decide

lemma isLowerHexChar_digitChar (m : Nat) (hm : m < 16) :
    isLowerHexChar (Nat.digitChar m) = true := by
  interval_cases m <;> decide

lemma decodeHexChars_append_singleton (l : List Char) (c : Char) :
    decodeHexChars (l ++ [c]) = 16 * decodeHexChars l + hexCharVal c := by
  simp [decodeHexChars, List.foldl_append]

lemma decodeHexChars_hexDigits (n : Nat) :
    decodeHexChars (hexDigits n) = n := by
  induction n using Nat.strong_induction_on with
  | _ n ih =>
    rw [hexDigits]
    split
    · simp [decodeHexChars, hexCharVal_digitChar n (by omega)]
    · rw [decodeHexChars_append_singleton,
        ih (n / 16) (Nat.div_lt_self (by omega) (by omega)),
        hexCharVal_digitChar (n % 16) (Nat.mod_lt _ (by omega))]
      omega

lemma decodeHexChars_replicate_zero_append (k : Nat) (l : List Char) :
    decodeHexChars (List.replicate k '0' ++ l) = decodeHexChars l := by
  induction k with
  | zero => simp
  | succ k ih =>
    have : List.replicate (k + 1) '0' ++ l = '0' :: (List.replicate k '0' ++ l) := by
      simp [List.replicate_succ]
    rw [this]
    simpa [decodeHexChars, hexCharVal] using ih

lemma decodeHexStr_pyHexFmt (w n : Nat) :
    decodeHexStr (pyHexFmt w n) = n := by
  show decodeHexChars (padZeros w (hexDigits n)) = n
  rw [padZeros, decodeHexChars_replicate_zero_append, decodeHexChars_hexDigits]

lemma hexDigits_length_le (w n : Nat) (hw : 1 ≤ w) (hn : n < 16 ^ w) :
    (hexDigits n).length ≤ w := by
  induction w generalizing n with
  | zero => omega
  | succ w ih =>
    rw [hexDigits]
    split
    · simp
    · rcases Nat.eq_zero_or_pos w with hw0 | hw0
      · subst hw0; simp at hn; omega
      · have hdiv : n / 16 < 16 ^ w := by
          rw [Nat.div_lt_iff_lt_mul (by omega)]
          calc n < 16 ^ (w + 1) := hn
            _ = 16 ^ w * 16 := by ring
        have := ih (n / 16) hw0 hdiv
        simp only [List.length_append, List.length_singleton]
        omega

lemma pyHexFmt_length (w n : Nat) (hw : 1 ≤ w) (hn : n < 16 ^ w) :
    (pyHexFmt w n).length = w := by
  have hle := hexDigits_length_le w n hw hn
  show (padZeros w (hexDigits n)).length = w
  simp [padZeros]
  omega

lemma hexDigits_lower (n : Nat) : ∀ c ∈ hexDigits n, isLowerHexChar c = true := by
  induction n using Nat.strong_induction_on with
  | _ n ih =>
    rw [hexDigits]
    split
    · simpa using isLowerHexChar_digitChar n (by omega)
    · intro c hc
      rcases List.mem_append.mp hc with hc | hc
      · exact ih (n / 16) (Nat.div_lt_self (by omega) (by omega)) c hc
      · simp at hc
        subst hc
        exact isLowerHexChar_digitChar (n % 16) (Nat.mod_lt _ (by omega))

lemma pyHexFmt_lower (w n : Nat) : ∀ c ∈ (pyHexFmt w n).data, isLowerHexChar c = true := by
  intro c hc
  rcases List.mem_append.mp hc with hc | hc
  · rw [List.eq_of_mem_replicate hc]; decide
  · exact hexDigits_lower n c hc

lemma MAX_SIZE_eq : MAX_SIZE = 8192 := by
  have h : ((MAX : ℚ) / (MAGIC_NUMBER : ℚ)) = 8192 := by
    norm_num [MAX, MAGIC_NUMBER]
  rw [MAX_SIZE, pyRound, h]
  norm_num

lemma pyRound_intCast (z : Int) : pyRound ((z : Int) : ℚ) = z := by
  rw [pyRound]
  norm_num

lemma pyRound_half : pyRound (1/2 : ℚ) = 0 := by
  rw [pyRound]
  norm_num

/-- Claim C1: for coordinates in `[0, 65535]` and color bytes in `[0, 255]`
the emitted paint operation targets exactly
`B ++ hex4 x ++ ":" ++ hex4 y ++ ":" ++ hex2 r ++ hex2 g ++ ":" ++ hex2 b ++ hex2 a`
with lowercase zero-padded hex fields that decode back to the original
integers; the mapping is a pure Lean function, so identical inputs yield the
identical string by definition. -/
theorem C1_paint_pixel_address (base_addr : String) (x y r g b a : Nat)
    (hx : x ≤ 65535) (hy : y ≤ 65535)
    (hr : r ≤ 255) (hg : g ≤ 255) (hb : b ≤ 255) (ha : a ≤ 255) :
    addr_spec base_addr x y r g b a := by
  refine ⟨rfl, ?_, ?_, ?_, ?_, ?_, ?_, pyHexFmt_lower 4 x, pyHexFmt_lower 4 y,
    pyHexFmt_lower 2 r, pyHexFmt_lower 2 g, pyHexFmt_lower 2 b, pyHexFmt_lower 2 a,
    decodeHexStr_pyHexFmt 4 x, decodeHexStr_pyHexFmt 4 y, decodeHexStr_pyHexFmt 2 r,
    decodeHexStr_pyHexFmt 2 g, decodeHexStr_pyHexFmt 2 b, decodeHexStr_pyHexFmt 2 a⟩
  · exact pyHexFmt_length 4 x (by norm_num) (by norm_num; omega)
  · exact pyHexFmt_length 4 y (by norm_num) (by norm_num; omega)
  · exact pyHexFmt_length 2 r (by norm_num) (by norm_num; omega)
  · exact pyHexFmt_length 2 g (by norm_num) (by norm_num; omega)
  · exact pyHexFmt_length 2 b (by norm_num) (by norm_num; omega)
  · exact pyHexFmt_length 2 a (by norm_num) (by norm_num; omega)

theorem C1_paint_pixel_address_witness :
    addr_spec "2602:f75c:c0::" 0 65535 255 0 17 255 :=
  C1_paint_pixel_address "2602:f75c:c0::" 0 65535 255 0 17 255
    (by norm_num) (by norm_num) (by norm_num) (by norm_num) (by norm_num) (by norm_num)

/-- Claim C4: with non-zero current dimensions, a `set_size` call specifying
exactly one axis with a value in `[1, MAX_SIZE]` differing from the current
value on that axis sets that axis exactly and recomputes the other axis as
`round(specified / current_aspect)` from the dimensions held before the call;
in exact arithmetic this is `round(specified * other_axis / this_axis)`. -/
theorem C4_one_axis_aspect (e : Element) (v : Int)
    (hw0 : e.width ≠ 0) (hh0 : e.height ≠ 0)
    (h1 : 1 ≤ v) (h2 : v ≤ MAX_SIZE) :
    (v ≠ e.width →
      set_size e v UNDEFINED =
        some ⟨v, pyRound ((v : ℚ) * (e.height : ℚ) / (e.width : ℚ))⟩) ∧
    (v ≠ e.height →
      set_size e UNDEFINED v =
        some ⟨pyRound ((v : ℚ) * (e.width : ℚ) / (e.height : ℚ)), v⟩) := by
  rw [MAX_SIZE_eq] at h2
  constructor
  · intro hne
    simp only [set_size, UNDEFINED, MIN_SIZE, MAX_SIZE_eq]
    rw [if_neg (by omega), if_neg (by omega), if_neg (by omega), if_neg (by omega),
      if_neg (by omega), if_pos ⟨by omega, by omega, by omega⟩, div_div_eq_mul_div]
  · intro hne
    simp only [set_size, UNDEFINED, MIN_SIZE, MAX_SIZE_eq]
    rw [if_neg (by omega), if_neg (by omega), if_neg (by omega), if_neg (by omega),
      if_neg (by omega), if_neg (by omega), if_pos ⟨by omega, by omega, by omega⟩,
      div_div_eq_mul_div]

theorem C4_one_axis_aspect_witness :
    set_size ⟨4, 2⟩ 2 UNDEFINED = some ⟨2, 1⟩ := by
  have h := (C4_one_axis_aspect ⟨4, 2⟩ 2 (by norm_num) (by norm_num) (by norm_num)
    (by rw [MAX_SIZE_eq]; norm_num)).1 (by norm_num)
  rw [h]
  have h2 : ((2 : Int) : ℚ) * (((⟨4, 2⟩ : Element).height : Int) : ℚ)
      / (((⟨4, 2⟩ : Element).width : Int) : ℚ) = ((1 : Int) : ℚ) := by
    show ((2 : Int) : ℚ) * ((2 : Int) : ℚ) / ((4 : Int) : ℚ) = ((1 : Int) : ℚ)
    norm_num
  rw [h2, pyRound_intCast]

/-- Claim C7 counterexample: a `Filling` is constructible at size 2×1, and the
shared `set_size` with only `width = 1` specified then returns (no fatal exit)
leaving the source at 1×0, whose height violates `1 ≤ height`: the
aspect-derived axis is not validated on the `Element`/`Filling` path. -/
theorem C7_counterexample :
    filling_init 2 1 = some ⟨2, 1⟩ ∧
    set_size ⟨2, 1⟩ 1 UNDEFINED = some ⟨1, 0⟩ ∧
    ¬(MIN_SIZE ≤ (0 : Int)) := by
  refine ⟨?_, ?_, by norm_num [MIN_SIZE]⟩
  · rw [filling_init, set_size]
    norm_num [UNDEFINED, MIN_SIZE, MAX_SIZE_eq]
  · rw [set_size]
    simp only [UNDEFINED, MIN_SIZE, MAX_SIZE_eq]
    rw [if_neg (by omega), if_neg (by omega), if_neg (by omega), if_neg (by omega),
      if_neg (by omega), if_pos ⟨by omega, by omega, by omega⟩]
    have h2 : ((1 : Int) : ℚ) / (((⟨2, 1⟩ : Element).width : Int) : ℚ)
        / ((((⟨2, 1⟩ : Element).height : Int) : ℚ))⁻¹⁻¹ = 1/2 := by
      show ((1 : Int) : ℚ) / ((2 : Int) : ℚ) / (((1 : Int) : ℚ))⁻¹⁻¹ = 1/2
      norm_num
    have h3 : ((1 : Int) : ℚ) / (((⟨2, 1⟩ : Element).width : ℚ) / ((⟨2, 1⟩ : Element).height : ℚ)) = 1/2 := by
      show ((1 : Int) : ℚ) / (((2 : Int) : ℚ) / ((1 : Int) : ℚ)) = 1/2
      norm_num
    rw [h3, pyRound_half]

/-- Claim C7 (amended): the size invariant `1 ≤ width ≤ MAX_SIZE ∧
1 ≤ height ≤ MAX_SIZE` holds for every `Bitmap` after construction and after
every `set_size` that returns (`assert_size` enforces it), and for every
`Filling` after construction via the program's fill path, which always
specifies both axes; it is only a one-axis `set_size` on the plain
`Element`/`Filling` path whose aspect-derived axis escapes validation. -/
theorem C7_size_invariant :
    (∀ w h e, bitmap_init w h = some e →
      MIN_SIZE ≤ e.width ∧ e.width ≤ MAX_SIZE ∧
        MIN_SIZE ≤ e.height ∧ e.height ≤ MAX_SIZE) ∧
    (∀ e width height e2, bitmap_set_size e width height = some e2 →
      MIN_SIZE ≤ e2.width ∧ e2.width ≤ MAX_SIZE ∧
        MIN_SIZE ≤ e2.height ∧ e2.height ≤ MAX_SIZE) ∧
    (∀ e width height e2, width ≠ UNDEFINED → height ≠ UNDEFINED →
      set_size e width height = some e2 →
      MIN_SIZE ≤ e2.width ∧ e2.width ≤ MAX_SIZE ∧
        MIN_SIZE ≤ e2.height ∧ e2.height ≤ MAX_SIZE) := by
  have hassert : ∀ e e2, assert_size e = some e2 →
      MIN_SIZE ≤ e2.width ∧ e2.width ≤ MAX_SIZE ∧
        MIN_SIZE ≤ e2.height ∧ e2.height ≤ MAX_SIZE := by
    intro e e2 h
    rw [assert_size] at h
    split_ifs at h with h1 h2
    obtain rfl : e = e2 := Option.some.inj h
    omega
  refine ⟨fun w h e hine => hassert _ _ hine, ?_, ?_⟩
  · intro e width height e2 hset
    rw [bitmap_set_size] at hset
    obtain ⟨e1, _, h2⟩ := Option.bind_eq_some.mp hset
    exact hassert e1 e2 h2
  · intro e width height e2 hw hh hset
    rw [set_size] at hset
    split_ifs at hset with h1 h2 h3 h4 h5 h6 h7
    · obtain rfl : (⟨width, height⟩ : Element) = e2 := Option.some.inj hset
      change MIN_SIZE ≤ width ∧ width ≤ MAX_SIZE ∧ MIN_SIZE ≤ height ∧ height ≤ MAX_SIZE
      exact ⟨by omega, by omega, by omega, by omega⟩
    all_goals exact absurd ⟨hw, hh⟩ h5

theorem C7_size_invariant_witness :
    MIN_SIZE ≤ (⟨2, 1⟩ : Element).width ∧ (⟨2, 1⟩ : Element).width ≤ MAX_SIZE ∧
      MIN_SIZE ≤ (⟨2, 1⟩ : Element).height ∧ (⟨2, 1⟩ : Element).height ≤ MAX_SIZE :=
  C7_size_invariant.2.2 ⟨0, 0⟩ 2 1 ⟨2, 1⟩ (by norm_num [UNDEFINED]) (by norm_num [UNDEFINED])
    (by rw [set_size]; norm_num [UNDEFINED, MIN_SIZE, MAX_SIZE_eq])

/-- Claim C8 counterexample: `MAX_SIZE = round(65536 / 8) = 8192`, not 8191,
and a `set_size` with axis value 8192 — greater than 8191 — is accepted, not
rejected. -/
theorem C8_counterexample :
    MAX_SIZE ≠ 8191 ∧ set_size ⟨0, 0⟩ 8192 8192 = some ⟨8192, 8192⟩ := by
  constructor
  · rw [MAX_SIZE_eq]; norm_num
  · rw [set_size]
    norm_num [UNDEFINED, MIN_SIZE, MAX_SIZE_eq]

/-- Claim C8 (amended): the per-axis maximum source size constant equals the
canvas bound divided by 8, namely 8192: a `set_size` axis value of 8192 is
accepted, and every axis value greater than 8192 is rejected as a fatal
size-bound error. -/
theorem C8_max_size_bound :
    MAX_SIZE = 8192 ∧
    (∀ e : Element, (set_size e 8192 8192).isSome) ∧
    (∀ (e : Element) (width height : Int), width > 8192 →
      set_size e width height = none) ∧
    (∀ (e : Element) (width height : Int), height > 8192 →
      set_size e width height = none) := by
  refine ⟨MAX_SIZE_eq, ?_, ?_, ?_⟩
  · intro e
    rw [set_size]
    norm_num [UNDEFINED, MIN_SIZE, MAX_SIZE_eq]
  · intro e width height hgt
    rw [set_size]
    simp only [UNDEFINED, MIN_SIZE, MAX_SIZE_eq]
    rw [if_neg (by omega), if_pos ⟨by omega, by omega⟩]
  · intro e width height hgt
    rw [set_size]
    simp only [UNDEFINED, MIN_SIZE, MAX_SIZE_eq]
    split_ifs with h1 h2 h3 h4 <;> first | rfl | omega

theorem C8_max_size_bound_witness :
    set_size ⟨0, 0⟩ 8193 UNDEFINED = none ∧
      (set_size (⟨0, 0⟩ : Element) 8192 8192).isSome :=
  ⟨C8_max_size_bound.2.2.1 ⟨0, 0⟩ 8193 UNDEFINED (by norm_num),
    C8_max_size_bound.2.1 ⟨0, 0⟩⟩

lemma exceeds_eq_true_iff (x y w h : Int) :
    exceeds x y w h = true ↔ x < ORIGIN ∨ y < ORIGIN ∨ x + w > MAX ∨ y + h > MAX := by
  simp [exceeds, exceeds_values]
  tauto

lemma exceeds_eq_false_iff (x y w h : Int) :
    exceeds x y w h = false ↔ ¬x < ORIGIN ∧ ¬y < ORIGIN ∧ ¬x + w > MAX ∧ ¬y + h > MAX := by
  simp [exceeds, exceeds_values, not_or]
  tauto

lemma resolve_boundary_overflow_eq (x y width height : Int) :
    resolve_boundary x y width height true false =
      if exceeds x y width height then
        some ⟨x, y,
          if x < ORIGIN then ORIGIN - x else ORIGIN,
          if y < ORIGIN then ORIGIN - y else ORIGIN,
          if x + width > MAX then MAX - x else width,
          if y + height > MAX then MAX - y else height⟩
      else some ⟨x, y, ORIGIN, ORIGIN, width, height⟩ := by
  rw [resolve_boundary]
  simp

lemma resolve_boundary_push_eq (x y width height : Int) :
    resolve_boundary x y width height false true =
      if exceeds x y width height then
        if exceeds (if x + width > MAX then MAX - width else if x < ORIGIN then ORIGIN else x)
            (if y + height > MAX then MAX - height else if y < ORIGIN then ORIGIN else y)
            width height then none
        else some ⟨if x + width > MAX then MAX - width else if x < ORIGIN then ORIGIN else x,
          if y + height > MAX then MAX - height else if y < ORIGIN then ORIGIN else y,
          ORIGIN, ORIGIN, width, height⟩
      else some ⟨x, y, ORIGIN, ORIGIN, width, height⟩ := by
  rw [resolve_boundary]
  simp

lemma iter_count_le (x0 y0 sx sy sw sh width height : Int)
    (hw : 0 ≤ width) (hh : 0 ≤ height)
    (h1 : 0 ≤ sx) (h2 : sw ≤ width) (h3 : 0 ≤ sy) (h4 : sh ≤ height) :
    iter_count ⟨x0, y0, sx, sy, sw, sh⟩ ≤ width * height := by
  show max 0 (sw - sx) * max 0 (sh - sy) ≤ width * height
  exact mul_le_mul (max_le hw (by omega)) (max_le hh (by omega)) (le_max_left 0 _) hw

/-- Claim C2: with the overflow policy, the resolved iteration window is
narrowed so that exactly the in-bounds portion of the requested rectangle is
painted: a negative origin raises the start offset by the magnitude of the
negative excess, a right/bottom excess caps the stop bound at
`MAX - origin`, the source dimensions are untouched (the window stays within
`[0, width] × [0, height]`), the painted count never exceeds
`width * height`, and origin `(0, 65530)` with size 10×10 resolves to a
window of 10 columns and 6 rows. -/
theorem C2_overflow (x y width height : Int) (ra : ResolvedArea)
    (hw : 0 ≤ width) (hh : 0 ≤ height)
    (hres : resolve_boundary x y width height true false = some ra) :
    overflow_spec x y width height ra ∧
      resolve_boundary 0 65530 10 10 true false = some ⟨0, 65530, 0, 0, 10, 6⟩ := by
  rw [resolve_boundary_overflow_eq] at hres
  refine ⟨?_, by decide⟩
  simp only [ORIGIN] at hres
  split_ifs at hres <;>
    · obtain rfl := Option.some.inj hres
      simp only [exceeds_eq_true_iff, not_or, ORIGIN] at *
      simp only [overflow_spec]
      refine ⟨?_, ?_, ?_, ?_, ?_, ?_, ?_, ?_, ?_, ?_, ?_, ?_, ?_⟩ <;>
        first
          | trivial
          | (intro h0; first | trivial | omega)
          | (apply iter_count_le <;> omega)
          | omega

theorem C2_overflow_witness :
    overflow_spec 0 65530 10 10 ⟨0, 65530, 0, 0, 10, 6⟩ ∧
      resolve_boundary 0 65530 10 10 true false = some ⟨0, 65530, 0, 0, 10, 6⟩ :=
  C2_overflow 0 65530 10 10 ⟨0, 65530, 0, 0, 10, 6⟩ (by norm_num) (by norm_num) (by decide)

/-- Claim C3: with the push policy, when the request exceeds the canvas and a
valid shift exists (the re-check passes), the resolved area keeps the
requested width and height and only translates the origin — a negative origin
clamps to 0, a right/bottom excess sets the origin to `MAX - size` — and the
painted pixel count equals the originally requested `width * height`. -/
theorem C3_push (x y width height : Int) (ra : ResolvedArea)
    (hexc : exceeds x y width height = true)
    (hres : resolve_boundary x y width height false true = some ra) :
    push_spec x y width height ra := by
  rw [resolve_boundary_push_eq, if_pos hexc] at hres
  simp only [ORIGIN] at hres
  split_ifs at hres <;>
    · obtain rfl := Option.some.inj hres
      simp only [exceeds_eq_true_iff, exceeds_eq_false_iff, not_or, ORIGIN,
        Bool.not_eq_true] at *
      simp only [push_spec]
      refine ⟨?_, ?_, ?_, ?_, ?_, ?_, ?_, ?_, ?_, ?_, ?_, ?_⟩ <;>
        first
          | trivial
          | (intro h0; first | trivial | omega)
          | (intro hw0 hh0;
             show max 0 (width - 0) * max 0 (height - 0) = width * height;
             rw [sub_zero, sub_zero, max_eq_right hw0, max_eq_right hh0])
          | (rw [exceeds_eq_false_iff]; simp only [ORIGIN]; omega)

theorem C3_push_witness : push_spec 0 65530 10 10 ⟨0, 65526, 0, 0, 10, 10⟩ :=
  C3_push 0 65530 10 10 ⟨0, 65526, 0, 0, 10, 10⟩ (by decide) (by decide)

/-- Claim C9: whenever the requested size fits the canvas on both axes, the
push shift always lands in bounds — the fatal still-exceeding re-check branch
is unreachable — and conversely the push branch can only end in that fatal
branch when the requested size itself exceeds the canvas on some axis. -/
theorem C9_push_total (x y width height : Int) :
    (width ≤ MAX → height ≤ MAX →
      resolve_boundary x y width height false true ≠ none) ∧
    (resolve_boundary x y width height false true = none →
      width > MAX ∨ height > MAX) := by
  have key : width ≤ MAX → height ≤ MAX →
      resolve_boundary x y width height false true ≠ none := by
    intro hwle hhle
    rw [resolve_boundary_push_eq]
    have hrf : exceeds
        (if x + width > MAX then MAX - width else if x < ORIGIN then ORIGIN else x)
        (if y + height > MAX then MAX - height else if y < ORIGIN then ORIGIN else y)
        width height = false := by
      rw [exceeds_eq_false_iff]
      simp only [ORIGIN]
      split_ifs <;> omega
    rw [hrf]
    split_ifs <;> simp_all
  refine ⟨key, ?_⟩
  intro hnone
  by_contra hc
  push_neg at hc
  exact key (by omega) (by omega) hnone

theorem C9_push_total_witness :
    resolve_boundary (-3) 65530 10 10 false true ≠ none :=
  (C9_push_total (-3) 65530 10 10).1 (by norm_num [MAX]) (by norm_num [MAX])

lemma foldl_paint_step (src : Int → Int → Rgba) (ox oy : Int) (skip : Bool)
    (pixels : Int) (l : List (Int × Int)) :
    ∀ (n : Nat) (ops : List PaintOp) (prog : List (Nat × Int)),
    l.foldl (paint_step src ox oy skip pixels) (n, ops, prog) =
      (n + (l.filter (keep_pixel src skip)).length,
        ops ++ (l.filter (keep_pixel src skip)).map (op_of src ox oy),
        prog ++ (List.range (l.filter (keep_pixel src skip)).length).map
          (fun i => (n + i + 1, pixels))) := by
  induction l with
  | nil => intro n ops prog; simp
  | cons c l ih =>
    intro n ops prog
    rw [List.foldl_cons]
    by_cases hc : keep_pixel src skip c
    · have hcond : (skip && ((src c.1 c.2).a == 0)) = false := by
        revert hc
        rw [keep_pixel]
        cases (skip && ((src c.1 c.2).a == 0)) <;> simp
      have hstep : paint_step src ox oy skip pixels (n, ops, prog) c =
          (n + 1, ops ++ [op_of src ox oy c], prog ++ [(n + 1, pixels)]) := by
        rw [paint_step]
        simp [hcond]
      rw [hstep, ih, List.filter_cons_of_pos hc]
      have hfun : (fun i : Nat => (n + 1 + i + 1, pixels)) =
          ((fun i : Nat => (n + i + 1, pixels)) ∘ Nat.succ) := by
        funext i
        simp only [Function.comp_apply]
        congr 1
        omega
      simp only [List.length_cons, List.map_cons, List.range_succ_eq_map,
        List.map_map, ← hfun, List.append_assoc, List.singleton_append,
        Prod.mk.injEq]
      exact ⟨by omega, trivial⟩
    · have hcond : (skip && ((src c.1 c.2).a == 0)) = true := by
        revert hc
        rw [keep_pixel]
        cases (skip && ((src c.1 c.2).a == 0)) <;> simp
      have hstep : paint_step src ox oy skip pixels (n, ops, prog) c =
          (n, ops, prog) := by
        rw [paint_step]
        simp [hcond]
      rw [hstep, ih, List.filter_cons_of_neg (by simpa using hc)]

lemma mem_range_list (start stop t : Int) :
    t ∈ range_list start stop ↔ start ≤ t ∧ t < stop := by
  rw [range_list, List.mem_map]
  constructor
  · rintro ⟨i, hi, rfl⟩
    rw [List.mem_range, Int.lt_toNat] at hi
    omega
  · intro h
    refine ⟨(t - start).toNat, ?_, ?_⟩
    · rw [List.mem_range, Int.lt_toNat, Int.toNat_of_nonneg (by omega)]
      omega
    · rw [Int.toNat_of_nonneg (by omega)]
      omega

lemma mem_axis_iter (reverse : Bool) (start stop t : Int) :
    t ∈ axis_iter reverse start stop ↔ start ≤ t ∧ t < stop := by
  rw [axis_iter]
  split_ifs <;> simp [mem_range_list]

lemma mem_iter_coords (reverse : Bool) (ra : ResolvedArea) (c : Int × Int) :
    c ∈ iter_coords reverse ra ↔
      (ra.start_x ≤ c.1 ∧ c.1 < ra.stop_width) ∧
      (ra.start_y ≤ c.2 ∧ c.2 < ra.stop_height) := by
  obtain ⟨cx, cy⟩ := c
  simp only [iter_coords, List.mem_flatMap, List.mem_map, mem_axis_iter,
    Prod.mk.injEq]
  constructor
  · rintro ⟨y0, hy, x0, hx, rfl, rfl⟩
    exact ⟨hx, hy⟩
  · rintro ⟨hx, hy⟩
    exact ⟨cy, hy, cx, hx, rfl, rfl⟩

/-- Claim C5: with skip-transparent enabled, an iterated pixel with alpha 0
emits no paint operation and does not bump the `painted` counter; every pixel
with non-zero alpha is emitted (in iteration order) and bumps the counter;
one progress report follows each emitted pixel and every report's
denominator is the full resolved window pixel count
`(stop_width - start_x) * (stop_height - start_y)`. -/
theorem C5_skip_transparent (src : Int → Int → Rgba) (ox oy : Int)
    (reverse : Bool) (ra : ResolvedArea) :
    skip_spec src ox oy reverse ra := by
  rw [skip_spec]
  have hkeep : keep_pixel src true = fun c : Int × Int => !((src c.1 c.2).a == 0) := by
    funext c
    rw [keep_pixel]
    simp
  have h : paint_loop src ox oy reverse true ra (area_pixels ra) =
      (((iter_coords reverse ra).filter
          (fun c => !((src c.1 c.2).a == 0))).length,
        ((iter_coords reverse ra).filter
          (fun c => !((src c.1 c.2).a == 0))).map (op_of src ox oy),
        (List.range ((iter_coords reverse ra).filter
          (fun c => !((src c.1 c.2).a == 0))).length).map
          (fun i => (i + 1, area_pixels ra))) := by
    rw [paint_loop, foldl_paint_step, hkeep]
    simp
  refine ⟨by rw [h], by rw [h], by rw [h], ?_⟩
  intro p hp
  rw [h] at hp
  simp only [List.mem_map, List.mem_range] at hp
  obtain ⟨i, _, rfl⟩ := hp
  rfl

theorem C5_skip_transparent_witness :
    skip_spec (fun _ _ => ⟨1, 2, 3, 0⟩) 5 6 false ⟨0, 0, 0, 0, 2, 2⟩ :=
  C5_skip_transparent (fun _ _ => ⟨1, 2, 3, 0⟩) 5 6 false ⟨0, 0, 0, 0, 2, 2⟩

lemma resolve_boundary_window (x y width height : Int) (ov pu : Bool)
    (ra : ResolvedArea)
    (hres : resolve_boundary x y width height ov pu = some ra) :
    0 ≤ ra.start_x ∧ ra.stop_width ≤ width ∧
    0 ≤ ra.x + ra.start_x ∧ ra.x + ra.stop_width ≤ MAX ∧
    0 ≤ ra.start_y ∧ ra.stop_height ≤ height ∧
    0 ≤ ra.y + ra.start_y ∧ ra.y + ra.stop_height ≤ MAX := by
  simp only [resolve_boundary] at hres
  split_ifs at hres <;>
    · obtain rfl := Option.some.inj hres
      simp only [exceeds_eq_true_iff, exceeds_eq_false_iff, not_or, ORIGIN,
        Bool.not_eq_true] at *
      refine ⟨?_, ?_, ?_, ?_, ?_, ?_, ?_, ?_⟩ <;> omega

/-- Claim C6: for every run whose boundary resolution succeeds — any
combination of overflow, push, center anchoring (the origin is an arbitrary
integer here) and reverse iteration — the dispatcher only ever requests
in-range source-local coordinates, and every emitted operation's absolute
coordinate is `origin + local offset`, inside `[0, 65535]` on both axes. -/
theorem C6_get_pixel_safe (x y width height : Int) (ov pu reverse : Bool)
    (ra : ResolvedArea)
    (hres : resolve_boundary x y width height ov pu = some ra) :
    dispatch_safe width height reverse ra := by
  obtain ⟨h1, h2, h3, h4, h5, h6, h7, h8⟩ :=
    resolve_boundary_window x y width height ov pu ra hres
  have hcoord : ∀ c ∈ iter_coords reverse ra,
      valid_pixel width height c.1 c.2 = true ∧
      0 ≤ ra.x + c.1 ∧ ra.x + c.1 < MAX ∧ 0 ≤ ra.y + c.2 ∧ ra.y + c.2 < MAX := by
    intro c hc
    rw [mem_iter_coords] at hc
    refine ⟨?_, by omega, by omega, by omega, by omega⟩
    rw [valid_pixel]
    simp only [Bool.and_eq_true, decide_eq_true_eq]
    refine ⟨⟨⟨?_, ?_⟩, ?_⟩, ?_⟩ <;> omega
  constructor
  · intro c hc
    obtain ⟨hv, hb1, hb2, hb3, hb4⟩ := hcoord c hc
    exact ⟨hv, fun pix => by rw [get_pixel, if_pos hv], hb1, hb2, hb3, hb4⟩
  · intro src skip pixels op hop
    rw [paint_loop, foldl_paint_step] at hop
    simp only [List.nil_append] at hop
    rw [List.mem_map] at hop
    obtain ⟨c, hcf, rfl⟩ := hop
    have hc : c ∈ iter_coords reverse ra := List.mem_of_mem_filter hcf
    obtain ⟨hv, hb1, hb2, hb3, hb4⟩ := hcoord c hc
    exact ⟨c, hc, rfl, rfl, rfl, hb1, hb2, hb3, hb4⟩

theorem C6_get_pixel_safe_witness : dispatch_safe 3 4 false ⟨1, 2, 0, 0, 3, 4⟩ :=
  C6_get_pixel_safe 1 2 3 4 false false false ⟨1, 2, 0, 0, 3, 4⟩ (by decide)

lemma mt_pending_lt (ops : List PaintOp) :
    ∀ st : List (List PaintOp) × List PaintOp,
      st.2.length < MAX_WORKERS →
      ((ops.foldl mt_submit st).2).length < MAX_WORKERS := by
  induction ops with
  | nil => intro st h; exact h
  | cons op ops ih =>
    intro st h
    rw [List.foldl_cons]
    apply ih
    rw [mt_submit]
    split_ifs with hm
    · simp [MAX_WORKERS]
    · simp only [List.length_append, List.length_singleton] at hm ⊢
      simp only [MAX_WORKERS] at *
      omega

/-- Claim C10: in concurrent mode (fixed pool `MAX_WORKERS = 3`) the delay is
forced to zero, operations are submitted in iteration order, the dispatcher
waits after every 3 submissions, 7 emitted pixels yield batches of 3, 3 and 1
with exactly 3 join-waits, at most 3 operations are pending at any step, and
every submitted operation is waited on before the final done message. -/
theorem C10_batching (ops : List PaintOp) (h7 : ops.length = 7) :
    mt_spec ops := by
  rcases ops with _ | ⟨a1, _ | ⟨a2, _ | ⟨a3, _ | ⟨a4, _ | ⟨a5, _ | ⟨a6, _ | ⟨a7, rest⟩⟩⟩⟩⟩⟩⟩ <;>
    simp only [List.length_cons, List.length_nil] at h7 <;> try omega
  have hrest : rest = [] := by
    rw [← List.length_eq_zero]
    omega
  subst hrest
  have hdisp : mt_dispatch [a1, a2, a3, a4, a5, a6, a7] =
      ([[a1, a2, a3], [a4, a5, a6]], [a7]) := by
    simp [mt_dispatch, mt_submit, MAX_WORKERS]
  refine ⟨rfl, fun d => rfl, ?_, ?_, ?_, ?_⟩
  · simp [hdisp, mt_shutdown]
  · simp [mt_joins, hdisp, mt_shutdown]
  · simp [hdisp, mt_shutdown]
  · intro p _
    exact mt_pending_lt p ([], []) (by simp [MAX_WORKERS])

theorem C10_batching_witness :
    mt_spec [⟨0, 0, 0, 0, 0, 0⟩, ⟨1, 0, 0, 0, 0, 0⟩, ⟨2, 0, 0, 0, 0, 0⟩,
      ⟨3, 0, 0, 0, 0, 0⟩, ⟨4, 0, 0, 0, 0, 0⟩, ⟨5, 0, 0, 0, 0, 0⟩,
      ⟨6, 0, 0, 0, 0, 0⟩] :=
  C10_batching _ rfl
